import Mathlib

/-!
Verification development for the TelegramAI authorization and resilience layer
(`backend/telegram_ai/ai/claude_code/permissions.py` and
`backend/telegram_ai/ai/claude_code/monitoring.py`).

The Python code is shallowly embedded: pure methods become Lean functions,
stateful methods become explicit state passing, raised exceptions become
`Except`/`Option` results.  Python's `re` module is modelled by a small
derivative-based regular-expression engine together with a parser for the
regex fragment that the permission patterns actually generate (literals,
`.`, postfix `*`, groups, alternation); a pattern outside that fragment
makes the matcher return `none` ("not modelled"), which is threaded through
the authorization decision function.
-/

/-- The `ClaudeCodeTool` enumeration from `types.py` (14 members). -/
inductive ClaudeCodeTool where
  | BASH | EDIT | GLOB | GREP | LS | MULTI_EDIT | NOTEBOOK_EDIT | NOTEBOOK_READ
  | READ | TASK | TODO_WRITE | WEB_FETCH | WEB_SEARCH | WRITE
deriving DecidableEq, Repr

/-- `tool.value`: the string value backing each enum member. -/
def ClaudeCodeTool.value : ClaudeCodeTool → String
  | .BASH => "Bash"
  | .EDIT => "Edit"
  | .GLOB => "Glob"
  | .GREP => "Grep"
  | .LS => "LS"
  | .MULTI_EDIT => "MultiEdit"
  | .NOTEBOOK_EDIT => "NotebookEdit"
  | .NOTEBOOK_READ => "NotebookRead"
  | .READ => "Read"
  | .TASK => "Task"
  | .TODO_WRITE => "TodoWrite"
  | .WEB_FETCH => "WebFetch"
  | .WEB_SEARCH => "WebSearch"
  | .WRITE => "Write"

/-- `ClaudeCodeTool(s)`: enum construction by value; `none` models the
`ValueError` raised for an unknown value. -/
def findTool? (s : String) : Option ClaudeCodeTool :=
  if s = "Bash" then some .BASH
  else if s = "Edit" then some .EDIT
  else if s = "Glob" then some .GLOB
  else if s = "Grep" then some .GREP
  else if s = "LS" then some .LS
  else if s = "MultiEdit" then some .MULTI_EDIT
  else if s = "NotebookEdit" then some .NOTEBOOK_EDIT
  else if s = "NotebookRead" then some .NOTEBOOK_READ
  else if s = "Read" then some .READ
  else if s = "Task" then some .TASK
  else if s = "TodoWrite" then some .TODO_WRITE
  else if s = "WebFetch" then some .WEB_FETCH
  else if s = "WebSearch" then some .WEB_SEARCH
  else if s = "Write" then some .WRITE
  else none

/-- The canonical list of all 14 tools, used to enumerate a `Finset` of tools
in a fixed order (Python iterates a `set` in an unspecified order; any fixed
enumeration is a faithful model because the code only rebuilds sets from it). -/
def allToolsList : List ClaudeCodeTool :=
  [.BASH, .EDIT, .GLOB, .GREP, .LS, .MULTI_EDIT, .NOTEBOOK_EDIT, .NOTEBOOK_READ,
   .READ, .TASK, .TODO_WRITE, .WEB_FETCH, .WEB_SEARCH, .WRITE]

theorem mem_allToolsList (t : ClaudeCodeTool) : t ∈ allToolsList := by
  cases t <;> decide

theorem findTool_value (t : ClaudeCodeTool) : findTool? t.value = some t := by
  cases t <;> rfl

/-! ### A derivative-based engine for the regex fragment used by the rules

Python semantics modelled: `.` matches any character except a newline;
`re.match(p, s)` matches a prefix of `s`; `re.match("^" ++ p ++ "$", s)`
succeeds iff `p` matches all of `s`, or all of `s` minus a single trailing
newline (the `$` end-of-string quirk). -/

/-- Regular expressions: empty language, empty string, a literal character,
`.` (any char except newline), concatenation, alternation, Kleene star. -/
inductive RE where
  | emp | eps
  | chr (c : Char)
  | dot
  | cat (a b : RE)
  | alt (a b : RE)
  | star (a : RE)
deriving DecidableEq, Repr

/-- Does the regex accept the empty string? -/
def RE.nullable : RE → Bool
  | .emp => false
  | .eps => true
  | .chr _ => false
  | .dot => false
  | .cat a b => a.nullable && b.nullable
  | .alt a b => a.nullable || b.nullable
  | .star _ => true

/-- Brzozowski derivative with respect to one character. -/
def RE.deriv : RE → Char → RE
  | .emp, _ => .emp
  | .eps, _ => .emp
  | .chr c, x => if x = c then .eps else .emp
  | .dot, x => if x = '\n' then .emp else .eps
  | .cat a b, x =>
      if a.nullable then .alt (.cat (a.deriv x) b) (b.deriv x)
      else .cat (a.deriv x) b
  | .alt a b, x => .alt (a.deriv x) (b.deriv x)
  | .star a, x => .cat (a.deriv x) (.star a)

/-- Whole-string acceptance. -/
def RE.acceptsList (r : RE) (s : List Char) : Bool :=
  (s.foldl RE.deriv r).nullable

/-- Does the regex accept some prefix of the string (Python `re.match`)? -/
def RE.acceptsSomePre : RE → List Char → Bool
  | r, [] => r.nullable
  | r, c :: rest => r.nullable || (r.deriv c).acceptsSomePre rest

/-- Characters the parser treats as plain literals (everything except the
regex metacharacters; of those, only `( ) | * .` are modelled, the rest make
the parser fail). -/
def isLitChar (c : Char) : Bool :=
  !(c = '(' || c = ')' || c = '|' || c = '*' || c = '.' ||
    c = '\\' || c = '[' || c = ']' || c = '^' || c = '$' ||
    c = '+' || c = '?' || c = '\x7b' || c = '\x7d')

mutual

/-- Parse an alternation (`a|b|...`). -/
def parseAlt : Nat → List Char → Option (RE × List Char)
  | 0, _ => none
  | f + 1, s =>
    match parseCat f s with
    | none => none
    | some (r, rest) =>
      match rest with
      | '|' :: rest2 =>
        match parseAlt f rest2 with
        | some (r2, rest3) => some (.alt r r2, rest3)
        | none => none
      | _ => some (r, rest)

/-- Parse a concatenation of repeated atoms. -/
def parseCat : Nat → List Char → Option (RE × List Char)
  | 0, _ => none
  | f + 1, s =>
    match s with
    | [] => some (.eps, [])
    | c :: _ =>
      if c = ')' || c = '|' then some (.eps, s)
      else
        match parseRep f s with
        | none => none
        | some (r1, rest) =>
          match parseCat f rest with
          | none => none
          | some (r2, rest2) => some (.cat r1 r2, rest2)

/-- Parse an atom with an optional postfix `*`. -/
def parseRep : Nat → List Char → Option (RE × List Char)
  | 0, _ => none
  | f + 1, s =>
    match parseAtom f s with
    | none => none
    | some (r, rest) =>
      match rest with
      | '*' :: rest2 => some (.star r, rest2)
      | _ => some (r, rest)

/-- Parse a group, `.`, or a literal character. -/
def parseAtom : Nat → List Char → Option (RE × List Char)
  | 0, _ => none
  | f + 1, s =>
    match s with
    | [] => none
    | '(' :: rest =>
      match parseAlt f rest with
      | none => none
      | some (r, rest2) =>
        match rest2 with
        | ')' :: rest3 => some (r, rest3)
        | _ => none
    | '.' :: rest => some (.dot, rest)
    | c :: rest => if isLitChar c then some (.chr c, rest) else none

end

/-- Parse a whole pattern into a regex; `none` when the pattern uses an
unmodelled construct (or is an invalid regex, which raises in Python). -/
def parseRE (p : String) : Option RE :=
  match parseAlt (4 * p.length + 4) p.data with
  | some (r, []) => some r
  | _ => none

/-- Model of `bool(re.match("^" ++ p ++ "$", s))`: full-string match, also
accepting a single trailing newline stripped (Python `$`). -/
def reMatchAnchored (p s : String) : Option Bool :=
  (parseRE p).map fun r =>
    r.acceptsList s.data ||
      (match s.data.getLast? with
       | some c => c = '\n' && r.acceptsList s.data.dropLast
       | none => false)

/-- Model of `bool(re.match(p, s))`: match at the start of the string. -/
def reMatchStart (p s : String) : Option Bool :=
  (parseRE p).map fun r => r.acceptsSomePre s.data

/-- `pattern.replace("*", ".*")` (a single-character needle, so a per-character
expansion is exactly Python's `str.replace`). -/
def starToDotStar (p : String) : String :=
  ⟨p.data.foldr (fun c acc => (if c = '*' then ['.', '*'] else [c]) ++ acc) []⟩

/-! ### `permissions.py`: data model and operations -/

/-- `PermissionRule` dataclass: `pattern`, optional `tool`, optional `action`,
and `is_regex` (default `false`).  Dataclass equality compares all fields. -/
structure PermissionRule where
  pattern : String
  tool : Option ClaudeCodeTool := none
  action : Option String := none
  is_regex : Bool := false
deriving DecidableEq, Repr

/-- The canonicalized full command built inside `PermissionRule.matches`:
`f"{tool.value}({command})"` when `command` is non-empty, else `tool.value`. -/
def fullCommand (t : ClaudeCodeTool) (command : String) : String :=
  if command = "" then t.value else t.value ++ "(" ++ command ++ ")"

/-- `PermissionRule.matches`: regex rules use `re.match(pattern, full)`;
wildcard rules replace `*` with `.*` and use `re.match("^"++p++"$", full)`.
`none` means the pattern falls outside the modelled regex fragment. -/
def PermissionRule.matchesO (r : PermissionRule) (t : ClaudeCodeTool)
    (command : String) : Option Bool :=
  let full := fullCommand t command
  if r.is_regex then reMatchStart r.pattern full
  else reMatchAnchored (starToDotStar r.pattern) full

/-- `PermissionConfig` dataclass: allowed/denied tool sets and ordered
allow/deny rule lists, all empty by default. -/
structure PermissionConfig where
  allowed_tools : Finset ClaudeCodeTool := ∅
  denied_tools : Finset ClaudeCodeTool := ∅
  allow_rules : List PermissionRule := []
  deny_rules : List PermissionRule := []
deriving DecidableEq

/-- The configuration dictionary handled by `to_dict`/`from_dict` (and by
`apply_preset`); an absent key is `none`.  The JSON string layer of
`export_config`/`import_config` (`json.dumps`/`json.loads`) is modelled as the
identity on this document. -/
structure ConfigDict where
  allowed_tools : Option (List String) := none
  denied_tools : Option (List String) := none
  allow_rules : Option (List String) := none
  deny_rules : Option (List String) := none
deriving DecidableEq

/-- Enumerate a tool set as a list in the canonical catalog order (Python
iterates the `set` in an unspecified order; only the resulting set is ever
relied upon). -/
def toolFinsetList (s : Finset ClaudeCodeTool) : List ClaudeCodeTool :=
  allToolsList.filter (fun t => t ∈ s)

/-- `PermissionConfig.to_dict`. -/
def PermissionConfig.to_dict (c : PermissionConfig) : ConfigDict :=
  { allowed_tools := some ((toolFinsetList c.allowed_tools).map ClaudeCodeTool.value)
    denied_tools := some ((toolFinsetList c.denied_tools).map ClaudeCodeTool.value)
    allow_rules := some (c.allow_rules.map (·.pattern))
    deny_rules := some (c.deny_rules.map (·.pattern)) }

/-- `ClaudeCodeTool(s)` as used during import: an unknown value raises
`ValueError`, modelled as `Except.error`. -/
def parseToolName (s : String) : Except String ClaudeCodeTool :=
  match findTool? s with
  | some t => .ok t
  | none => .error (s ++ " is not a valid ClaudeCodeTool")

/-- Parse a list of tool-name strings, failing at the first unknown name. -/
def parseToolNames : List String → Except String (List ClaudeCodeTool)
  | [] => .ok []
  | s :: rest =>
    match parseToolName s with
    | .error e => .error e
    | .ok t =>
      match parseToolNames rest with
      | .error e => .error e
      | .ok ts => .ok (t :: ts)

/-- A tool-set entry of the dictionary: absent key keeps the default empty
set; present key is a set comprehension over parsed names. -/
def parseToolsOpt : Option (List String) → Except String (Finset ClaudeCodeTool)
  | none => .ok ∅
  | some ss =>
    match parseToolNames ss with
    | .error e => .error e
    | .ok ts => .ok ts.toFinset

/-- A rule-list entry of the dictionary: `PermissionRule(pattern=rule)` for
each pattern string (all other fields default). -/
def rulesOfOpt : Option (List String) → List PermissionRule
  | none => []
  | some ps => ps.map (fun p => { pattern := p })

/-- `PermissionConfig.from_dict`; the first unknown tool name fails the
whole import (`ValueError` propagates). -/
def PermissionConfig.from_dict (d : ConfigDict) : Except String PermissionConfig :=
  match parseToolsOpt d.allowed_tools with
  | .error e => .error e
  | .ok allowed =>
    match parseToolsOpt d.denied_tools with
    | .error e => .error e
    | .ok denied =>
      .ok { allowed_tools := allowed
            denied_tools := denied
            allow_rules := rulesOfOpt d.allow_rules
            deny_rules := rulesOfOpt d.deny_rules }

/-- The seven default-allowed safe tools of `_init_default_permissions`. -/
def safeTools : Finset ClaudeCodeTool :=
  {.READ, .GREP, .GLOB, .LS, .TODO_WRITE, .TASK, .WEB_SEARCH}

/-- The four default-denied dangerous tools of `_init_default_permissions`. -/
def dangerousTools : Finset ClaudeCodeTool :=
  {.BASH, .WRITE, .EDIT, .MULTI_EDIT}

/-- The five default deny rules of `_init_default_permissions`, in order. -/
def defaultDenyRules : List PermissionRule :=
  [{ pattern := "Bash(rm*)" }, { pattern := "Bash(sudo*)" },
   { pattern := "Bash(chmod 777*)" }, { pattern := "Bash(* | sh)" },
   { pattern := "Bash(* | bash)" }]

/-- `PermissionManager._init_default_permissions`: merge the defaults into the
active config (in Python this mutates the caller-supplied object in place). -/
def initDefaultPermissions (c : PermissionConfig) : PermissionConfig :=
  { c with allowed_tools := c.allowed_tools ∪ safeTools
           denied_tools := c.denied_tools ∪ dangerousTools
           deny_rules := c.deny_rules ++ defaultDenyRules }

/-- `PermissionManager.__init__`: `self.config = config or PermissionConfig()`
followed by `_init_default_permissions()`.  The manager state is its config. -/
def PermissionManager.init (config : Option PermissionConfig) : PermissionConfig :=
  initDefaultPermissions (config.getD {})

/-- Scan a rule list for the first rule whose `matches` returns true, in list
order; `none` propagates an unmodelled pattern reached before a match. -/
def findMatch : List PermissionRule → ClaudeCodeTool → String →
    Option (Option PermissionRule)
  | [], _, _ => some none
  | r :: rest, t, c =>
    match r.matchesO t c with
    | none => none
    | some true => some (some r)
    | some false => findMatch rest t c

/-- `PermissionManager.check_permission`: returns `(allowed, reason)`. -/
def checkPermission (cfg : PermissionConfig) (t : ClaudeCodeTool)
    (command : String) : Option (Bool × Option String) :=
  if t ∈ cfg.denied_tools then
    some (false, some ("工具 " ++ t.value ++ " 被明确拒绝"))
  else
    match findMatch cfg.deny_rules t command with
    | none => none
    | some (some r) => some (false, some ("命令匹配拒绝规则: " ++ r.pattern))
    | some none =>
      if t ∉ cfg.allowed_tools then
        some (false, some ("工具 " ++ t.value ++ " 未在允许列表中"))
      else if command ≠ "" ∧ cfg.allow_rules ≠ [] then
        match findMatch cfg.allow_rules t command with
        | none => none
        | some (some _) => some (true, none)
        | some none => some (false, some "命令未匹配任何允许规则")
      else some (true, none)

/-- `PermissionManager.add_allowed_tool`. -/
def add_allowed_tool (cfg : PermissionConfig) (t : ClaudeCodeTool) : PermissionConfig :=
  { cfg with allowed_tools := insert t cfg.allowed_tools
             denied_tools := cfg.denied_tools.erase t }

/-- `PermissionManager.add_denied_tool`. -/
def add_denied_tool (cfg : PermissionConfig) (t : ClaudeCodeTool) : PermissionConfig :=
  { cfg with denied_tools := insert t cfg.denied_tools
             allowed_tools := cfg.allowed_tools.erase t }

/-- `PermissionManager.add_allow_rule`: append unless an equal rule (dataclass
equality over all four fields) is already present. -/
def add_allow_rule (cfg : PermissionConfig) (pattern : String)
    (regexFlag : Bool := false) : PermissionConfig :=
  let rule : PermissionRule := { pattern := pattern, is_regex := regexFlag }
  if rule ∈ cfg.allow_rules then cfg
  else { cfg with allow_rules := cfg.allow_rules ++ [rule] }

/-- `PermissionManager.add_deny_rule`: same dedup as `add_allow_rule`. -/
def add_deny_rule (cfg : PermissionConfig) (pattern : String)
    (regexFlag : Bool := false) : PermissionConfig :=
  let rule : PermissionRule := { pattern := pattern, is_regex := regexFlag }
  if rule ∈ cfg.deny_rules then cfg
  else { cfg with deny_rules := cfg.deny_rules ++ [rule] }

/-- The hardcoded preset table of `apply_preset`. -/
def presetDict? (name : String) : Option ConfigDict :=
  if name = "readonly" then
    some { allowed_tools := some ["Read", "Grep", "Glob", "LS", "WebSearch"]
           denied_tools := some ["Write", "Edit", "Bash", "MultiEdit", "WebFetch"]
           deny_rules := some ["*"] }
  else if name = "content_generation" then
    some { allowed_tools := some ["TodoWrite", "Task", "WebSearch", "Read", "WebFetch"]
           denied_tools := some ["Bash", "Write", "Edit", "MultiEdit"]
           deny_rules := some ["Bash(*)", "Write(*)", "Edit(*)"] }
  else if name = "development" then
    some { allowed_tools := some ["Read", "Write", "Edit", "MultiEdit", "Grep",
                                  "Glob", "LS", "TodoWrite", "Task", "WebSearch",
                                  "WebFetch"]
           denied_tools := some []
           allow_rules := some ["Bash(npm*)", "Bash(yarn*)", "Bash(git*)",
                                "Bash(python*)", "Bash(node*)"]
           deny_rules := some ["Bash(rm -rf*)", "Bash(sudo*)", "Bash(chmod 777*)",
                               "Bash(curl * | sh)"] }
  else none

/-- `PermissionManager.apply_preset`: on an unknown name (or a failed
`from_dict`) the raised error leaves `self.config` untouched; on success the
config is replaced wholesale. -/
def applyPreset (cfg : PermissionConfig) (name : String) :
    PermissionConfig × Option String :=
  match presetDict? name with
  | none => (cfg, some ("未知预设: " ++ name))
  | some d =>
    match PermissionConfig.from_dict d with
    | .error e => (cfg, some e)
    | .ok c2 => (c2, none)

/-- `PermissionManager.export_config` (the `json.dumps` layer is modelled as
the identity on the dictionary, `json.loads ∘ json.dumps = id` here). -/
def export_config (cfg : PermissionConfig) : ConfigDict := cfg.to_dict

/-- `PermissionManager.import_config`. -/
def import_config (d : ConfigDict) : Except String PermissionConfig :=
  PermissionConfig.from_dict d

/-- The spec's wildcard compilation, stated from the spec's words for
comparison with the code: escape every regex metacharacter except `*` (an
escaped metacharacter is a plain literal), replace each `*` with `.*`, anchor
with `^...$` for an exact full-string match. -/
def specWildcardRE (p : String) : RE :=
  p.data.foldr (fun c acc => RE.cat (if c = '*' then RE.star RE.dot else RE.chr c) acc)
    RE.eps

/-- Full-string wildcard matching as the spec describes it. -/
def specWildcardMatches (p s : String) : Bool :=
  (specWildcardRE p).acceptsList s.data

/-! ### Lemmas about rule scanning -/

theorem findMatch_none_sound {rs : List PermissionRule} {t : ClaudeCodeTool}
    {c : String} (h : findMatch rs t c = some none) :
    ∀ r ∈ rs, r.matchesO t c = some false := by
  induction rs with
  | nil => intro r hr; cases hr
  | cons r0 rest ih =>
    intro r hr
    simp only [findMatch] at h
    cases hm : r0.matchesO t c with
    | none => rw [hm] at h; cases h
    | some b =>
      cases b with
      | true => rw [hm] at h; simp at h
      | false =>
        rw [hm] at h
        rcases List.mem_cons.mp hr with rfl | hr2
        · exact hm
        · exact ih h r hr2

theorem findMatch_some_sound {rs : List PermissionRule} {t : ClaudeCodeTool}
    {c : String} {r : PermissionRule} (h : findMatch rs t c = some (some r)) :
    r ∈ rs ∧ r.matchesO t c = some true := by
  induction rs with
  | nil => simp [findMatch] at h
  | cons r0 rest ih =>
    simp only [findMatch] at h
    cases hm : r0.matchesO t c with
    | none => rw [hm] at h; cases h
    | some b =>
      cases b with
      | true =>
        rw [hm] at h
        have he : r0 = r := by simpa using h
        subst he
        exact ⟨List.mem_cons_self r0 rest, hm⟩
      | false =>
        rw [hm] at h
        obtain ⟨hmem, hmt⟩ := ih h
        exact ⟨List.mem_cons_of_mem _ hmem, hmt⟩

theorem findMatch_eq_of_no_true {rs : List PermissionRule} {t : ClaudeCodeTool}
    {c : String} (hne : findMatch rs t c ≠ none)
    (hall : ∀ r ∈ rs, r.matchesO t c ≠ some true) : findMatch rs t c = some none := by
  cases hf : findMatch rs t c with
  | none => exact absurd hf hne
  | some o =>
    cases o with
    | none => rfl
    | some r =>
      obtain ⟨hm, ht⟩ := findMatch_some_sound hf
      exact absurd ht (hall r hm)

/-- C1: the spec says wildcard rules are compiled by escaping all regex
metacharacters except `*` before replacing `*` with `.*` and anchoring, so
that `Bash(rm*)` matches `Bash(rm -rf /)` and `Bash(git*)` matches
`Bash(git status)`.  The code performs no escaping, so `(` and `)` act as a
regex group and such rules fail to match the canonicalized command; the
repository's own tests (`test_command_permissions`, `test_rule_matching`)
assert the spec's behavior, so this is a bug in the code.  Each code-side
evaluation is paired with the spec-side compilation, which matches. -/
theorem c1_wildcard_escaping_missing :
    ({ pattern := "Bash(git*)" } : PermissionRule).matchesO .BASH "git status"
        = some false ∧
    specWildcardMatches "Bash(git*)" (fullCommand .BASH "git status") = true ∧
    ({ pattern := "Bash(rm*)" } : PermissionRule).matchesO .BASH "rm -rf /"
        = some false ∧
    specWildcardMatches "Bash(rm*)" (fullCommand .BASH "rm -rf /") = true ∧
    checkPermission
        (add_allowed_tool (add_allow_rule (PermissionManager.init none) "Bash(git*)") .BASH)
        .BASH "git status"
      = some (false, some "命令未匹配任何允许规则") :=
  ⟨by decide, by decide, by decide, by decide, by decide⟩

/-- C2: the authorization decision evaluates denied-tool membership, deny
rules, allowed-tool membership and allow rules in that order; a tool in the
denied set is denied with the tool-denial reason regardless of rules, a
matching deny rule denies with its pattern in the reason, and the call is
allowed exactly when none of the deny checks fire, the tool is allowed, and
(when a command and allow rules are present) some allow rule matches. -/
theorem c2_decision_structure (cfg : PermissionConfig) (t : ClaudeCodeTool)
    (c : String) (res : Bool × Option String)
    (h : checkPermission cfg t c = some res) :
    (t ∈ cfg.denied_tools → res = (false, some ("工具 " ++ t.value ++ " 被明确拒绝"))) ∧
    (∀ r, t ∉ cfg.denied_tools → findMatch cfg.deny_rules t c = some (some r) →
      res = (false, some ("命令匹配拒绝规则: " ++ r.pattern))) ∧
    (res.1 = true ↔ (t ∉ cfg.denied_tools ∧
      (∀ r ∈ cfg.deny_rules, r.matchesO t c ≠ some true) ∧
      t ∈ cfg.allowed_tools ∧
      ((c ≠ "" ∧ cfg.allow_rules ≠ []) →
        ∃ r ∈ cfg.allow_rules, r.matchesO t c = some true))) := by
  by_cases hd : t ∈ cfg.denied_tools
  · rw [checkPermission, if_pos hd] at h
    injection h with h
    subst h
    refine ⟨fun _ => rfl, fun r hnd _ => absurd hd hnd, ?_⟩
    constructor
    · intro hq; cases hq
    · rintro ⟨hnd, -, -, -⟩; exact absurd hd hnd
  · rw [checkPermission, if_neg hd] at h
    cases hfm : findMatch cfg.deny_rules t c with
    | none => rw [hfm] at h; cases h
    | some o =>
      rw [hfm] at h
      cases o with
      | some r0 =>
        injection h with h
        subst h
        have hs := findMatch_some_sound hfm
        refine ⟨fun hd2 => absurd hd2 hd, fun r _ hfm2 => ?_, ?_⟩
        · have : r0 = r := by simpa using hfm2
          subst this; rfl
        · constructor
          · intro hq; cases hq
          · rintro ⟨-, hno, -, -⟩; exact absurd hs.2 (hno r0 hs.1)
      | none =>
        have hall := findMatch_none_sound hfm
        have hnotrue : ∀ r ∈ cfg.deny_rules, r.matchesO t c ≠ some true := by
          intro r hr
          rw [hall r hr]
          simp
        by_cases ha : t ∈ cfg.allowed_tools
        · rw [if_neg (not_not_intro ha)] at h
          by_cases hcr : (c ≠ "" ∧ cfg.allow_rules ≠ [])
          · rw [if_pos hcr] at h
            cases hfa : findMatch cfg.allow_rules t c with
            | none => rw [hfa] at h; cases h
            | some oa =>
              rw [hfa] at h
              cases oa with
              | some r1 =>
                injection h with h
                subst h
                have hs1 := findMatch_some_sound hfa
                refine ⟨fun hd2 => absurd hd2 hd, fun r _ hfm2 => ?_, ?_⟩
                · simp at hfm2
                · constructor
                  · intro _
                    exact ⟨hd, hnotrue, ha, fun _ => ⟨r1, hs1.1, hs1.2⟩⟩
                  · intro _; rfl
              | none =>
                injection h with h
                subst h
                refine ⟨fun hd2 => absurd hd2 hd, fun r _ hfm2 => ?_, ?_⟩
                · simp at hfm2
                · constructor
                  · intro hq; cases hq
                  · rintro ⟨-, -, -, hex⟩
                    obtain ⟨r1, hr1, htrue⟩ := hex hcr
                    have := findMatch_none_sound hfa r1 hr1
                    rw [htrue] at this; cases this
          · rw [if_neg hcr] at h
            injection h with h
            subst h
            refine ⟨fun hd2 => absurd hd2 hd, fun r _ hfm2 => ?_, ?_⟩
            · simp at hfm2
            · constructor
              · intro _
                exact ⟨hd, hnotrue, ha, fun hcon => absurd hcon hcr⟩
              · intro _; rfl
        · rw [if_pos ha] at h
          injection h with h
          subst h
          refine ⟨fun hd2 => absurd hd2 hd, fun r _ hfm2 => ?_, ?_⟩
          · simp at hfm2
          · constructor
            · intro hq; cases hq
            · rintro ⟨-, -, ha2, -⟩; exact absurd ha2 ha

/-- C2 witness: the decision structure evaluated on the default manager for
the safe tool `Read` with no command. -/
theorem c2_decision_structure_witness :
    checkPermission (PermissionManager.init none) .READ "" = some (true, none) ∧
    (((true, none) : Bool × Option String).1 = true ↔
      (ClaudeCodeTool.READ ∉ (PermissionManager.init none).denied_tools ∧
       (∀ r ∈ (PermissionManager.init none).deny_rules,
           r.matchesO .READ "" ≠ some true) ∧
       ClaudeCodeTool.READ ∈ (PermissionManager.init none).allowed_tools ∧
       (((""  : String) ≠ "" ∧ (PermissionManager.init none).allow_rules ≠ []) →
         ∃ r ∈ (PermissionManager.init none).allow_rules,
           r.matchesO .READ "" = some true))) :=
  ⟨by decide,
   (c2_decision_structure (PermissionManager.init none) .READ "" (true, none)
       (by decide)).2.2⟩

/-- C3: an unknown preset name makes `apply_preset` raise the
"unknown preset" error and leaves the active policy exactly unchanged. -/
theorem c3_unknown_preset (cfg : PermissionConfig) (name : String)
    (h1 : name ≠ "readonly") (h2 : name ≠ "content_generation")
    (h3 : name ≠ "development") :
    applyPreset cfg name = (cfg, some ("未知预设: " ++ name)) := by
  rw [applyPreset, presetDict?, if_neg h1, if_neg h2, if_neg h3]

/-- C3 witness: a concrete unknown preset name on a concrete policy. -/
theorem c3_unknown_preset_witness :
    ("safe_mode" ≠ "readonly" ∧ "safe_mode" ≠ "content_generation" ∧
      "safe_mode" ≠ "development") ∧
    applyPreset {} "safe_mode" = ({}, some ("未知预设: " ++ "safe_mode")) :=
  ⟨⟨by decide, by decide, by decide⟩,
   c3_unknown_preset {} "safe_mode" (by decide) (by decide) (by decide)⟩

/-! ### Round-trip lemmas for `to_dict`/`from_dict` -/

theorem toolFinsetList_toFinset (s : Finset ClaudeCodeTool) :
    (toolFinsetList s).toFinset = s := by
  ext t
  simp [toolFinsetList, List.mem_filter, mem_allToolsList]

theorem parseToolNames_map_value (l : List ClaudeCodeTool) :
    parseToolNames (l.map ClaudeCodeTool.value) = .ok l := by
  induction l with
  | nil => rfl
  | cons t rest ih =>
    simp [parseToolNames, parseToolName, findTool_value, ih]

theorem from_dict_to_dict (cfg : PermissionConfig) :
    PermissionConfig.from_dict (PermissionConfig.to_dict cfg)
      = .ok { allowed_tools := cfg.allowed_tools
              denied_tools := cfg.denied_tools
              allow_rules := cfg.allow_rules.map (fun r => { pattern := r.pattern })
              deny_rules := cfg.deny_rules.map (fun r => { pattern := r.pattern }) } := by
  have ha := parseToolNames_map_value (toolFinsetList cfg.allowed_tools)
  have hd := parseToolNames_map_value (toolFinsetList cfg.denied_tools)
  simp only [PermissionConfig.from_dict, PermissionConfig.to_dict, parseToolsOpt,
    rulesOfOpt, ha, hd, toolFinsetList_toFinset, List.map_map]
  rfl

/-- C4: importing an exported policy reconstructs identical allowed/denied
tool sets and identical allow/deny rule pattern lists. -/
theorem c4_export_import_roundtrip (cfg : PermissionConfig) :
    ∃ cfg2, import_config (export_config cfg) = .ok cfg2 ∧
      cfg2.allowed_tools = cfg.allowed_tools ∧
      cfg2.denied_tools = cfg.denied_tools ∧
      cfg2.allow_rules.map (·.pattern) = cfg.allow_rules.map (·.pattern) ∧
      cfg2.deny_rules.map (·.pattern) = cfg.deny_rules.map (·.pattern) := by
  refine ⟨_, from_dict_to_dict cfg, rfl, rfl, ?_, ?_⟩ <;>
    · rw [List.map_map]; rfl

/-- C5 counterexample: dedup is by whole-rule dataclass equality, not by the
pattern string alone.  A list already holding a regex rule with pattern
`Bash(git*)` is changed by `add_allow_rule("Bash(git*)")`, because the new
wildcard rule differs in `is_regex` even though the pattern is identical. -/
theorem c5_counterexample :
    ({ pattern := "Bash(git*)", is_regex := true } : PermissionRule) ∈
      ({ allow_rules := [{ pattern := "Bash(git*)", is_regex := true }] }
        : PermissionConfig).allow_rules ∧
    (add_allow_rule
        ({ allow_rules := [{ pattern := "Bash(git*)", is_regex := true }] }
          : PermissionConfig) "Bash(git*)").allow_rules ≠
      ({ allow_rules := [{ pattern := "Bash(git*)", is_regex := true }] }
        : PermissionConfig).allow_rules :=
  ⟨by decide, by decide⟩

/-- C5 amended: `add_allow_rule`/`add_deny_rule` deduplicate by equality of
the whole constructed rule (pattern together with the `is_regex` flag and the
default `tool`/`action` fields): re-adding a rule with the same pattern and
the same flag is a no-op and the operation is idempotent, but the same
pattern under a different `is_regex` flag is appended again. -/
theorem c5_dedup_whole_rule (cfg : PermissionConfig) (p : String) (b : Bool) :
    (({ pattern := p, is_regex := b } : PermissionRule) ∈ cfg.allow_rules →
      add_allow_rule cfg p b = cfg) ∧
    (({ pattern := p, is_regex := b } : PermissionRule) ∈ cfg.deny_rules →
      add_deny_rule cfg p b = cfg) ∧
    add_allow_rule (add_allow_rule cfg p b) p b = add_allow_rule cfg p b ∧
    add_deny_rule (add_deny_rule cfg p b) p b = add_deny_rule cfg p b := by
  refine ⟨fun hm => ?_, fun hm => ?_, ?_, ?_⟩
  · rw [add_allow_rule]; simp only [if_pos hm]
  · rw [add_deny_rule]; simp only [if_pos hm]
  · by_cases hm : ({ pattern := p, is_regex := b } : PermissionRule) ∈ cfg.allow_rules
    · simp [add_allow_rule, hm]
    · simp [add_allow_rule, hm]
  · by_cases hm : ({ pattern := p, is_regex := b } : PermissionRule) ∈ cfg.deny_rules
    · simp [add_deny_rule, hm]
    · simp [add_deny_rule, hm]

/-- C5 witness: re-adding an identical pattern with the same flag on a
concrete policy is a no-op. -/
theorem c5_dedup_whole_rule_witness :
    (({ pattern := "Read(*)" } : PermissionRule) ∈
      ({ allow_rules := [{ pattern := "Read(*)" }] } : PermissionConfig).allow_rules) ∧
    add_allow_rule ({ allow_rules := [{ pattern := "Read(*)" }] } : PermissionConfig)
        "Read(*)" false
      = ({ allow_rules := [{ pattern := "Read(*)" }] } : PermissionConfig) :=
  ⟨by decide,
   (c5_dedup_whole_rule
      ({ allow_rules := [{ pattern := "Read(*)" }] } : PermissionConfig)
      "Read(*)" false).1 (by decide)⟩

/-- C9: construction always merges the fixed defaults into the active policy
(seven safe tools into the allowed set, four dangerous tools into the denied
set, five default deny rules appended), whether or not a config was supplied,
so the policy is never empty right after construction.  In Python the merge
mutates the caller-supplied config object in place; here that object is the
`config.getD {}` state the merge is applied to. -/
theorem c9_default_merge (config : Option PermissionConfig) :
    (PermissionManager.init config).allowed_tools
        = (config.getD {}).allowed_tools ∪ safeTools ∧
    (PermissionManager.init config).denied_tools
        = (config.getD {}).denied_tools ∪ dangerousTools ∧
    (PermissionManager.init config).allow_rules = (config.getD {}).allow_rules ∧
    (PermissionManager.init config).deny_rules
        = (config.getD {}).deny_rules ++ defaultDenyRules ∧
    ClaudeCodeTool.READ ∈ (PermissionManager.init config).allowed_tools ∧
    ClaudeCodeTool.BASH ∈ (PermissionManager.init config).denied_tools ∧
    (PermissionManager.init config).deny_rules ≠ [] := by
  refine ⟨rfl, rfl, rfl, rfl, ?_, ?_, ?_⟩
  · exact Finset.mem_union_right _ (by decide)
  · exact Finset.mem_union_right _ (by decide)
  · show (config.getD {}).deny_rules ++ defaultDenyRules ≠ []
    simp [defaultDenyRules]

/-- C10: every rule built by config import (`from_dict`, hence also
`import_config` and `apply_preset`) is a wildcard rule — `is_regex` is false
and the optional fields are defaults — and importing an exported policy turns
every rule, regex rules included, into a wildcard rule carrying the same
pattern text. -/
theorem c10_import_wildcard_only :
    (∀ d cfg2, PermissionConfig.from_dict d = .ok cfg2 →
      (∀ r ∈ cfg2.allow_rules, r.is_regex = false ∧ r.tool = none ∧ r.action = none) ∧
      (∀ r ∈ cfg2.deny_rules, r.is_regex = false ∧ r.tool = none ∧ r.action = none)) ∧
    (∀ cfg cfg2, PermissionConfig.from_dict (PermissionConfig.to_dict cfg) = .ok cfg2 →
      cfg2.allow_rules = cfg.allow_rules.map (fun r => { pattern := r.pattern }) ∧
      cfg2.deny_rules = cfg.deny_rules.map (fun r => { pattern := r.pattern })) := by
  have hinv : ∀ d cfg2, PermissionConfig.from_dict d = .ok cfg2 →
      cfg2.allow_rules = rulesOfOpt d.allow_rules ∧
      cfg2.deny_rules = rulesOfOpt d.deny_rules := by
    intro d cfg2 h
    rw [PermissionConfig.from_dict] at h
    cases h1 : parseToolsOpt d.allowed_tools with
    | error e => rw [h1] at h; cases h
    | ok a =>
      rw [h1] at h
      cases h2 : parseToolsOpt d.denied_tools with
      | error e => rw [h2] at h; cases h
      | ok dn =>
        rw [h2] at h
        injection h with h
        subst h
        exact ⟨rfl, rfl⟩
  have hflds : ∀ o, ∀ r ∈ rulesOfOpt o,
      PermissionRule.is_regex r = false ∧ r.tool = none ∧ r.action = none := by
    intro o r hr
    cases o with
    | none => cases hr
    | some ps =>
      simp only [rulesOfOpt, List.mem_map] at hr
      obtain ⟨p, -, rfl⟩ := hr
      exact ⟨rfl, rfl, rfl⟩
  constructor
  · intro d cfg2 h
    obtain ⟨ha, hd⟩ := hinv d cfg2 h
    exact ⟨fun r hr => hflds _ r (ha ▸ hr), fun r hr => hflds _ r (hd ▸ hr)⟩
  · intro cfg cfg2 h
    obtain ⟨ha, hd⟩ := hinv _ cfg2 h
    rw [ha, hd]
    constructor <;>
      · show List.map _ (List.map _ _) = _
        rw [List.map_map]; rfl

/-- C10 witness: a concrete import where the source rule was a regex rule. -/
theorem c10_import_wildcard_only_witness :
    PermissionConfig.from_dict
        (PermissionConfig.to_dict
          ({ allow_rules := [{ pattern := "Bash.*", is_regex := true }] }
            : PermissionConfig))
      = .ok ({ allow_rules := [{ pattern := "Bash.*" }] } : PermissionConfig) ∧
    ({ allow_rules := [{ pattern := "Bash.*" }] } : PermissionConfig).allow_rules
      = ({ allow_rules := [{ pattern := "Bash.*", is_regex := true }]
            } : PermissionConfig).allow_rules.map
          (fun r => { pattern := r.pattern }) := by
  have h0 : PermissionConfig.from_dict
      (PermissionConfig.to_dict
        ({ allow_rules := [{ pattern := "Bash.*", is_regex := true }] }
          : PermissionConfig))
      = .ok ({ allow_rules := [{ pattern := "Bash.*" }] } : PermissionConfig) := by
    rw [from_dict_to_dict]
    rfl
  exact ⟨h0, (c10_import_wildcard_only.2
    ({ allow_rules := [{ pattern := "Bash.*", is_regex := true }] } : PermissionConfig)
    ({ allow_rules := [{ pattern := "Bash.*" }] } : PermissionConfig) h0).1⟩

/-! ### `monitoring.py`: error handlers and error recovery -/

/-- Outcome of calling one registered error handler: it returns normally or
raises (the raised message is what `_handle_error` logs). -/
inductive HRes where
  | ok
  | raises (msg : String)

/-- A registered error handler, invoked with the operation name, the error
text and the metadata. -/
def Handler (μ : Type) := String → String → μ → HRes

/-- The handler loop of `PerformanceMonitor._handle_error`: every handler is
called in registration order inside a `try`/`except`; the returned list logs
one entry per invocation (`none` = returned normally, `some e` = exception
caught and logged).  The function is total: a handler's failure never
propagates and never stops the remaining handlers. -/
def runHandlers {μ : Type} : List (Handler μ) → String → String → μ → List (Option String)
  | [], _, _, _ => []
  | h :: rest, op, err, m =>
    (match h op err m with
     | .ok => none
     | .raises e => some e) :: runHandlers rest op err m

/-- The error-dispatch part of `OperationContext.__aexit__`: with
`success = (exc_type is None)` and `error_msg = str(exc_val) if exc_val else
None`, the handlers run only under `if not success and error_msg:` — that is,
only when an exception text is present and non-empty.  `excText` is
`str(exc_val)` when the scope exited with an exception, `none` otherwise. -/
def aexitHandlerCalls {μ : Type} (handlers : List (Handler μ))
    (excText : Option String) (op : String) (meta : μ) : List (Option String) :=
  match excText with
  | none => []
  | some m => if m = "" then [] else runHandlers handlers op m meta

/-- `type(error).__name__` and `str(error)` of a Python exception. -/
structure PyError where
  name : String
  msg : String

/-- The recovery context dictionary, reduced to the one key `handle_error`
reads (`context.get("operation", "unknown")`). -/
structure RecCtx where
  operation : Option String

/-- Outcome of calling one recovery strategy: it raises (caught and logged),
or returns a value (`none` models Python `None` = not recovered). -/
inductive StratRes (α : Type) where
  | raises (msg : String)
  | returns (val : Option α)

/-- A registered recovery strategy. -/
def Strategy (α : Type) := PyError → RecCtx → StratRes α

/-- The recovered value of a strategy call, if any (a raised exception and a
`None` return both yield `none`). -/
def StratRes.value? {α : Type} : StratRes α → Option α
  | .returns (some v) => some v
  | .returns none => none
  | .raises _ => none

/-- `ErrorRecovery` state: the pattern-keyed strategy registry in insertion
order, the per-key retry counters (`defaultdict(int)`), and `max_retries`. -/
structure ErrorRecoveryState (α : Type) where
  recovery_strategies : List (String × List (Strategy α))
  error_counts : String → Nat
  max_retries : Nat

/-- `ErrorRecovery.__init__`: empty registry, zero counters, ceiling 3. -/
def ErrorRecovery.initState (α : Type) : ErrorRecoveryState α :=
  { recovery_strategies := [], error_counts := fun _ => 0, max_retries := 3 }

/-- `ErrorRecovery.register_recovery`: append the strategy to its pattern's
list (`defaultdict(list)`), keeping first-insertion key order. -/
def addStrat {α : Type} : List (String × List (Strategy α)) → String → Strategy α →
    List (String × List (Strategy α))
  | [], p, s => [(p, [s])]
  | (q, ss) :: rest, p, s =>
    if q = p then (q, ss ++ [s]) :: rest else (q, ss) :: addStrat rest p s

/-- `register_recovery` on the whole state. -/
def register_recovery {α : Type} (st : ErrorRecoveryState α) (pattern : String)
    (strat : Strategy α) : ErrorRecoveryState α :=
  { st with recovery_strategies := addStrat st.recovery_strategies pattern strat }

/-- Python substring containment `p in s` on character lists. -/
def isSubOf (p : List Char) : List Char → Bool
  | [] => p.isPrefixOf []
  | c :: rest => p.isPrefixOf (c :: rest) || isSubOf p rest

/-- `"{error_type}:{context.get('operation', 'unknown')}"`. -/
def errorKey (e : PyError) (c : RecCtx) : String :=
  e.name ++ ":" ++ c.operation.getD "unknown"

/-- `pattern in error_type or pattern in error_message`. -/
def entryApplies (p : String) (e : PyError) : Bool :=
  isSubOf p.data e.name.data || isSubOf p.data e.msg.data

/-- The inner strategy loop: run strategies in order inside `try`/`except`;
the first non-`None` result stops the loop.  Returns the recovered value (if
any) and the number of strategies invoked. -/
def runStrategies {α : Type} : List (Strategy α) → PyError → RecCtx → Option α × Nat
  | [], _, _ => (none, 0)
  | s :: rest, e, c =>
    match (s e c).value? with
    | some v => (some v, 1)
    | none =>
      let p := runStrategies rest e c
      (p.1, p.2 + 1)

/-- The outer loop over registry entries: an entry is consulted only when its
pattern is a substring of the error type name or message; a recovered value
returns through both loops. -/
def runEntries {α : Type} : List (String × List (Strategy α)) → PyError → RecCtx →
    Option α × Nat
  | [], _, _ => (none, 0)
  | (p, ss) :: rest, e, c =>
    if entryApplies p e then
      match runStrategies ss e c with
      | (some v, n) => (some v, n)
      | (none, n) =>
        let q := runEntries rest e c
        (q.1, n + q.2)
    else runEntries rest e c

/-- Result of one `handle_error` call: the recovered value (or `none`), the
successor state, the number of strategies invoked, and whether the call
returned through the retry-ceiling branch. -/
structure HandleOut (α : Type) where
  result : Option α
  state : ErrorRecoveryState α
  invoked : Nat
  fatal : Bool

/-- `ErrorRecovery.handle_error`: increment the key's counter; if it now
exceeds `max_retries`, return `None` immediately without consulting
strategies; otherwise run matching strategies, and on the first non-`None`
result reset the key's counter to zero and return the value. -/
def handle_error {α : Type} (st : ErrorRecoveryState α) (e : PyError) (c : RecCtx) :
    HandleOut α :=
  let key := errorKey e c
  let newCount := st.error_counts key + 1
  let counts1 : String → Nat :=
    fun k => if k = key then newCount else st.error_counts k
  if newCount > st.max_retries then
    { result := none, state := { st with error_counts := counts1 },
      invoked := 0, fatal := true }
  else
    match runEntries st.recovery_strategies e c with
    | (some v, n) =>
      { result := some v,
        state := { st with error_counts := fun k => if k = key then 0 else counts1 k },
        invoked := n, fatal := false }
    | (none, n) =>
      { result := none, state := { st with error_counts := counts1 },
        invoked := n, fatal := false }

/-- The strategies of the entries applicable to an error, flattened in
registry order. -/
def applicableStrategies {α : Type} (entries : List (String × List (Strategy α)))
    (e : PyError) : List (Strategy α) :=
  entries.foldr (fun en acc => if entryApplies en.1 e then en.2 ++ acc else acc) []

/-! ### Lemmas about `handle_error` -/

theorem handle_error_state_max {α : Type} (st : ErrorRecoveryState α)
    (e : PyError) (c : RecCtx) :
    (handle_error st e c).state.max_retries = st.max_retries := by
  unfold handle_error
  dsimp only
  split
  · rfl
  · cases hr : runEntries st.recovery_strategies e c with
    | mk r n => cases r <;> rfl

theorem handle_error_counts_none {α : Type} {st : ErrorRecoveryState α}
    {e : PyError} {c : RecCtx} (h : (handle_error st e c).result = none) :
    (handle_error st e c).state.error_counts (errorKey e c)
      = st.error_counts (errorKey e c) + 1 := by
  unfold handle_error at h ⊢
  dsimp only at h ⊢
  by_cases hc : st.error_counts (errorKey e c) + 1 > st.max_retries
  · rw [if_pos hc]
    simp
  · rw [if_neg hc] at h ⊢
    cases hr : runEntries st.recovery_strategies e c with
    | mk r n =>
      rw [hr] at h
      cases r with
      | some v => simp at h
      | none => simp

theorem handle_error_fatal_of_exceeds {α : Type} {st : ErrorRecoveryState α}
    {e : PyError} {c : RecCtx}
    (h : st.error_counts (errorKey e c) + 1 > st.max_retries) :
    (handle_error st e c).result = none ∧
    (handle_error st e c).invoked = 0 ∧
    (handle_error st e c).fatal = true := by
  unfold handle_error
  dsimp only
  rw [if_pos h]
  exact ⟨rfl, rfl, rfl⟩

theorem handle_error_success {α : Type} {st : ErrorRecoveryState α}
    {e : PyError} {c : RecCtx} {v : α} {n : Nat}
    (hle : st.error_counts (errorKey e c) + 1 ≤ st.max_retries)
    (hrun : runEntries st.recovery_strategies e c = (some v, n)) :
    (handle_error st e c).result = some v ∧
    (handle_error st e c).invoked = n ∧
    (handle_error st e c).fatal = false ∧
    (handle_error st e c).state.error_counts (errorKey e c) = 0 := by
  unfold handle_error
  dsimp only
  rw [if_neg (Nat.not_lt.mpr hle), hrun]
  refine ⟨rfl, rfl, rfl, ?_⟩
  simp

theorem handle_error_fatal_false {α : Type} {st : ErrorRecoveryState α}
    {e : PyError} {c : RecCtx}
    (hle : st.error_counts (errorKey e c) + 1 ≤ st.max_retries) :
    (handle_error st e c).fatal = false := by
  unfold handle_error
  dsimp only
  rw [if_neg (Nat.not_lt.mpr hle)]
  cases hr : runEntries st.recovery_strategies e c with
  | mk r n => cases r <;> rfl

/-- C6: with the default ceiling (`max_retries = 3`), after three consecutive
calls for the same `(errorType, operation)` key that produced no recovery,
the fourth call for that key returns `None` through the retry-ceiling branch,
invoking no strategy. -/
theorem c6_fourth_call_fatal {α : Type} (st : ErrorRecoveryState α)
    (e1 e2 e3 e4 : PyError) (c1 c2 c3 c4 : RecCtx)
    (hmr : st.max_retries = 3)
    (h0 : st.error_counts (errorKey e1 c1) = 0)
    (k2 : errorKey e2 c2 = errorKey e1 c1)
    (k3 : errorKey e3 c3 = errorKey e1 c1)
    (k4 : errorKey e4 c4 = errorKey e1 c1)
    (f1 : (handle_error st e1 c1).result = none)
    (f2 : (handle_error (handle_error st e1 c1).state e2 c2).result = none)
    (f3 : (handle_error (handle_error (handle_error st e1 c1).state e2 c2).state
            e3 c3).result = none) :
    (handle_error (handle_error (handle_error (handle_error st e1 c1).state
        e2 c2).state e3 c3).state e4 c4).result = none ∧
    (handle_error (handle_error (handle_error (handle_error st e1 c1).state
        e2 c2).state e3 c3).state e4 c4).invoked = 0 ∧
    (handle_error (handle_error (handle_error (handle_error st e1 c1).state
        e2 c2).state e3 c3).state e4 c4).fatal = true := by
  have s1c : (handle_error st e1 c1).state.error_counts (errorKey e1 c1) = 1 := by
    rw [handle_error_counts_none f1, h0]
  have s2c : (handle_error (handle_error st e1 c1).state e2 c2).state.error_counts
      (errorKey e1 c1) = 2 := by
    have h := handle_error_counts_none f2
    rw [k2] at h
    rw [h, s1c]
  have s3c : (handle_error (handle_error (handle_error st e1 c1).state e2 c2).state
      e3 c3).state.error_counts (errorKey e1 c1) = 3 := by
    have h := handle_error_counts_none f3
    rw [k3] at h
    rw [h, s2c]
  have m3 : (handle_error (handle_error (handle_error st e1 c1).state e2 c2).state
      e3 c3).state.max_retries = 3 := by
    rw [handle_error_state_max, handle_error_state_max, handle_error_state_max, hmr]
  refine handle_error_fatal_of_exceeds ?_
  rw [k4, s3c, m3]
  omega

/-- C6 witness: four consecutive calls on a fresh default recovery state with
no registered strategies. -/
theorem c6_fourth_call_fatal_witness :
    (ErrorRecovery.initState Bool).max_retries = 3 ∧
    (ErrorRecovery.initState Bool).error_counts
      (errorKey ⟨"ValueError", "boom"⟩ ⟨some "op"⟩) = 0 ∧
    (handle_error (ErrorRecovery.initState Bool) ⟨"ValueError", "boom"⟩
      ⟨some "op"⟩).result = none ∧
    (handle_error (handle_error (ErrorRecovery.initState Bool) ⟨"ValueError", "boom"⟩
      ⟨some "op"⟩).state ⟨"ValueError", "boom"⟩ ⟨some "op"⟩).result = none ∧
    (handle_error (handle_error (handle_error (ErrorRecovery.initState Bool)
      ⟨"ValueError", "boom"⟩ ⟨some "op"⟩).state ⟨"ValueError", "boom"⟩
      ⟨some "op"⟩).state ⟨"ValueError", "boom"⟩ ⟨some "op"⟩).result = none ∧
    ((handle_error (handle_error (handle_error (handle_error
        (ErrorRecovery.initState Bool) ⟨"ValueError", "boom"⟩ ⟨some "op"⟩).state
        ⟨"ValueError", "boom"⟩ ⟨some "op"⟩).state ⟨"ValueError", "boom"⟩
        ⟨some "op"⟩).state ⟨"ValueError", "boom"⟩ ⟨some "op"⟩).result = none ∧
      (handle_error (handle_error (handle_error (handle_error
        (ErrorRecovery.initState Bool) ⟨"ValueError", "boom"⟩ ⟨some "op"⟩).state
        ⟨"ValueError", "boom"⟩ ⟨some "op"⟩).state ⟨"ValueError", "boom"⟩
        ⟨some "op"⟩).state ⟨"ValueError", "boom"⟩ ⟨some "op"⟩).invoked = 0 ∧
      (handle_error (handle_error (handle_error (handle_error
        (ErrorRecovery.initState Bool) ⟨"ValueError", "boom"⟩ ⟨some "op"⟩).state
        ⟨"ValueError", "boom"⟩ ⟨some "op"⟩).state ⟨"ValueError", "boom"⟩
        ⟨some "op"⟩).state ⟨"ValueError", "boom"⟩ ⟨some "op"⟩).fatal = true) :=
  ⟨rfl, rfl, rfl, rfl, rfl,
   c6_fourth_call_fatal (ErrorRecovery.initState Bool)
     ⟨"ValueError", "boom"⟩ ⟨"ValueError", "boom"⟩ ⟨"ValueError", "boom"⟩
     ⟨"ValueError", "boom"⟩ ⟨some "op"⟩ ⟨some "op"⟩ ⟨some "op"⟩ ⟨some "op"⟩
     rfl rfl rfl rfl rfl rfl rfl rfl⟩

/-! ### Lemmas about the strategy loops -/

theorem runStrategies_none_len {α : Type} {ss : List (Strategy α)} {e : PyError}
    {c : RecCtx} {n : Nat} (h : runStrategies ss e c = (none, n)) :
    n = ss.length := by
  induction ss generalizing n with
  | nil =>
    simp only [runStrategies, Prod.mk.injEq, true_and] at h
    rw [List.length_nil, ← h]
  | cons s rest ih =>
    simp only [runStrategies] at h
    cases hv : (s e c).value? with
    | some v => rw [hv] at h; simp at h
    | none =>
      rw [hv] at h
      cases hp : runStrategies rest e c with
      | mk r m =>
        rw [hp] at h
        have h2 : (r, m + 1) = ((none : Option α), n) := h
        simp only [Prod.mk.injEq] at h2
        obtain ⟨h3, h4⟩ := h2
        subst h3
        rw [List.length_cons, ← h4, ih hp]

theorem runStrategies_append_some {α : Type} {l1 : List (Strategy α)}
    (l2 : List (Strategy α)) {e : PyError} {c : RecCtx} {v : α} {n : Nat}
    (h : runStrategies l1 e c = (some v, n)) :
    runStrategies (l1 ++ l2) e c = (some v, n) := by
  induction l1 generalizing n with
  | nil => simp [runStrategies] at h
  | cons s rest ih =>
    rw [List.cons_append]
    simp only [runStrategies] at h ⊢
    cases hv : (s e c).value? with
    | some w => rw [hv] at h; exact h
    | none =>
      rw [hv] at h
      cases hp : runStrategies rest e c with
      | mk r m =>
        rw [hp] at h
        have h2 : (r, m + 1) = ((some v : Option α), n) := h
        simp only [Prod.mk.injEq] at h2
        obtain ⟨h3, h4⟩ := h2
        subst h3
        rw [ih hp]
        show ((some v : Option α), m + 1) = (some v, n)
        rw [h4]

theorem runStrategies_append_none {α : Type} {l1 : List (Strategy α)}
    (l2 : List (Strategy α)) {e : PyError} {c : RecCtx} {n : Nat}
    (h : runStrategies l1 e c = (none, n)) :
    runStrategies (l1 ++ l2) e c
      = ((runStrategies l2 e c).1, n + (runStrategies l2 e c).2) := by
  induction l1 generalizing n with
  | nil =>
    simp only [runStrategies, Prod.mk.injEq, true_and] at h
    rw [List.nil_append, ← h]
    simp
  | cons s rest ih =>
    rw [List.cons_append]
    simp only [runStrategies] at h ⊢
    cases hv : (s e c).value? with
    | some w => rw [hv] at h; simp at h
    | none =>
      rw [hv] at h
      cases hp : runStrategies rest e c with
      | mk r m =>
        rw [hp] at h
        have h2 : (r, m + 1) = ((none : Option α), n) := h
        simp only [Prod.mk.injEq] at h2
        obtain ⟨h3, h4⟩ := h2
        subst h3
        rw [ih hp]
        show ((runStrategies l2 e c).1, m + (runStrategies l2 e c).2 + 1)
          = ((runStrategies l2 e c).1, n + (runStrategies l2 e c).2)
        simp only [Prod.mk.injEq, true_and]
        omega

theorem runStrategies_first_success {α : Type} {pre post : List (Strategy α)}
    {s : Strategy α} {e : PyError} {c : RecCtx} {v : α}
    (hpre : ∀ s2 ∈ pre, (s2 e c).value? = none) (hs : (s e c).value? = some v) :
    runStrategies (pre ++ s :: post) e c = (some v, pre.length + 1) := by
  induction pre with
  | nil =>
    rw [List.nil_append]
    simp only [runStrategies, hs, List.length_nil]
  | cons s0 rest ih =>
    have h0 := hpre s0 (List.mem_cons_self s0 rest)
    rw [List.cons_append]
    simp only [runStrategies, h0]
    rw [ih (fun s2 hs2 => hpre s2 (List.mem_cons_of_mem _ hs2))]
    simp [List.length_cons]

theorem runEntries_eq_applicable {α : Type}
    (entries : List (String × List (Strategy α))) (e : PyError) (c : RecCtx) :
    runEntries entries e c = runStrategies (applicableStrategies entries e) e c := by
  induction entries with
  | nil => rfl
  | cons en rest ih =>
    rcases en with ⟨p, ss⟩
    simp only [runEntries, applicableStrategies, List.foldr_cons]
    by_cases hap : entryApplies p e
    · rw [if_pos hap, if_pos hap]
      cases hr : runStrategies ss e c with
      | mk r n =>
        cases r with
        | some v =>
          rw [runStrategies_append_some
            (List.foldr (fun en acc =>
              if entryApplies en.1 e then en.2 ++ acc else acc) [] rest) hr]
        | none =>
          rw [runStrategies_append_none
            (List.foldr (fun en acc =>
              if entryApplies en.1 e then en.2 ++ acc else acc) [] rest) hr]
          dsimp only
          rw [ih]
          rfl
    · rw [if_neg hap, if_neg hap]
      exact ih

/-- C7: when some strategy recovers, evaluation stops at the first applicable
strategy returning a non-`None` value, the key's retry counter is reset to
zero, and the value is returned; a failure for the same key right after the
success is therefore attempt 1 (its increment makes the counter 1 and the
retry-ceiling branch is not taken). -/
theorem c7_first_success_resets {α : Type} (st : ErrorRecoveryState α)
    (e : PyError) (c : RecCtx) (pre post : List (Strategy α)) (s : Strategy α)
    (v : α) (e2 : PyError) (c2 : RecCtx)
    (hmr : st.max_retries = 3)
    (hcnt : st.error_counts (errorKey e c) < 3)
    (happ : applicableStrategies st.recovery_strategies e = pre ++ s :: post)
    (hpre : ∀ s2 ∈ pre, (s2 e c).value? = none)
    (hs : (s e c).value? = some v)
    (hk : errorKey e2 c2 = errorKey e c) :
    (handle_error st e c).result = some v ∧
    (handle_error st e c).invoked = pre.length + 1 ∧
    (handle_error st e c).state.error_counts (errorKey e c) = 0 ∧
    (handle_error (handle_error st e c).state e2 c2).fatal = false ∧
    ((handle_error (handle_error st e c).state e2 c2).result = none →
      (handle_error (handle_error st e c).state e2 c2).state.error_counts
        (errorKey e c) = 1) := by
  have hrun : runEntries st.recovery_strategies e c = (some v, pre.length + 1) := by
    rw [runEntries_eq_applicable, happ, runStrategies_first_success hpre hs]
  have hle : st.error_counts (errorKey e c) + 1 ≤ st.max_retries := by
    rw [hmr]; omega
  obtain ⟨hres, hinv, -, hcounts⟩ := handle_error_success hle hrun
  have hle2 : (handle_error st e c).state.error_counts (errorKey e2 c2) + 1
      ≤ (handle_error st e c).state.max_retries := by
    rw [hk, hcounts, handle_error_state_max, hmr]
    omega
  refine ⟨hres, hinv, hcounts, handle_error_fatal_false hle2, fun hr2 => ?_⟩
  have h := handle_error_counts_none hr2
  rw [hk] at h
  rw [h, hcounts]

/-- C7 witness: one applicable entry holding a failing strategy followed by a
succeeding one; the second strategy recovers, the counter resets, and the
next failure for the key is attempt 1. -/
theorem c7_first_success_resets_witness :
    applicableStrategies
        ({ recovery_strategies :=
             [("E", [fun _ _ => StratRes.returns none,
                     fun _ _ => StratRes.returns (some true)])],
           error_counts := fun _ => 0, max_retries := 3 }
          : ErrorRecoveryState Bool).recovery_strategies ⟨"Err", "boom"⟩
      = [fun _ _ => StratRes.returns none] ++
          (fun _ _ => StratRes.returns (some true)) :: [] ∧
    (handle_error
        ({ recovery_strategies :=
             [("E", [fun _ _ => StratRes.returns none,
                     fun _ _ => StratRes.returns (some true)])],
           error_counts := fun _ => 0, max_retries := 3 }
          : ErrorRecoveryState Bool) ⟨"Err", "boom"⟩ ⟨some "op"⟩).result
      = some true ∧
    (handle_error
        ({ recovery_strategies :=
             [("E", [fun _ _ => StratRes.returns none,
                     fun _ _ => StratRes.returns (some true)])],
           error_counts := fun _ => 0, max_retries := 3 }
          : ErrorRecoveryState Bool) ⟨"Err", "boom"⟩ ⟨some "op"⟩).invoked = 2 ∧
    (handle_error
        ({ recovery_strategies :=
             [("E", [fun _ _ => StratRes.returns none,
                     fun _ _ => StratRes.returns (some true)])],
           error_counts := fun _ => 0, max_retries := 3 }
          : ErrorRecoveryState Bool) ⟨"Err", "boom"⟩
        ⟨some "op"⟩).state.error_counts (errorKey ⟨"Err", "boom"⟩ ⟨some "op"⟩)
      = 0 ∧
    (handle_error (handle_error
        ({ recovery_strategies :=
             [("E", [fun _ _ => StratRes.returns none,
                     fun _ _ => StratRes.returns (some true)])],
           error_counts := fun _ => 0, max_retries := 3 }
          : ErrorRecoveryState Bool) ⟨"Err", "boom"⟩ ⟨some "op"⟩).state
        ⟨"Err", "boom"⟩ ⟨some "op"⟩).fatal = false :=
  have h := c7_first_success_resets
    ({ recovery_strategies :=
         [("E", [fun _ _ => StratRes.returns none,
                 fun _ _ => StratRes.returns (some true)])],
       error_counts := fun _ => 0, max_retries := 3 } : ErrorRecoveryState Bool)
    ⟨"Err", "boom"⟩ ⟨some "op"⟩ [fun _ _ => StratRes.returns none] []
    (fun _ _ => StratRes.returns (some true)) true ⟨"Err", "boom"⟩ ⟨some "op"⟩
    rfl (by decide) rfl
    (by
      intro s2 hs2
      rw [List.mem_singleton] at hs2
      subst hs2
      rfl)
    rfl rfl
  ⟨rfl, h.1, h.2.1, h.2.2.1, h.2.2.2.1⟩

/-- C8 counterexample: the claim says that whenever a tracked operation scope
exits with a failure every registered handler is invoked; but when the raised
exception stringifies to the empty string (`str(exc_val) == ""`, e.g.
`raise ValueError()`), the guard `if not success and error_msg:` is falsy and
no handler runs at all — here one handler is registered and zero are invoked
although the scope exited with an exception. -/
theorem c8_counterexample :
    (some "" : Option String) ≠ none ∧
    aexitHandlerCalls ([fun _ _ _ => HRes.ok] : List (Handler Unit))
        (some "") "op" () = [] ∧
    ([fun _ _ _ => HRes.ok] : List (Handler Unit)).length = 1 :=
  ⟨by decide, rfl, rfl⟩

/-- C8 amended: whenever a tracked operation scope exits with a failure whose
error text is non-empty, every registered error handler is invoked exactly
once, in registration order, with the operation name, the error text and the
metadata; a handler's own exception is captured in the log entry, never
propagated, and never prevents the remaining handlers from running (the
dispatch always returns one log entry per handler). -/
theorem c8_handlers_all_invoked {μ : Type} (handlers : List (Handler μ))
    (m op : String) (meta : μ) (hm : m ≠ "") :
    aexitHandlerCalls handlers (some m) op meta
      = handlers.map (fun h =>
          match h op m meta with
          | .ok => none
          | .raises e => some e) := by
  show (if m = "" then [] else runHandlers handlers op m meta) = _
  rw [if_neg hm]
  induction handlers with
  | nil => rfl
  | cons h rest ih => simp only [runHandlers, List.map_cons, ih]

/-- C8 amended witness: a raising handler followed by a normal one — both are
invoked, in order, and the raised message is logged rather than propagated. -/
theorem c8_handlers_all_invoked_witness :
    ("boom" ≠ "") ∧
    aexitHandlerCalls
        ([fun _ _ _ => HRes.raises "bad", fun _ _ _ => HRes.ok] : List (Handler Unit))
        (some "boom") "op" ()
      = [some "bad", none] :=
  ⟨by decide,
   (c8_handlers_all_invoked
      ([fun _ _ _ => HRes.raises "bad", fun _ _ _ => HRes.ok] : List (Handler Unit))
      "boom" "op" () (by decide)).trans rfl⟩
